import Mathlib

/-!
Verification of `RuleListClassifier.py` (sklearn-expertsys): a shallow
embedding of the scikit-learn wrapper around the Bayesian Rule List
classifier, together with theorems settling the specified properties.

Transactions are lists of categorical string tokens.  Labels are integers
(the wrapper only requires them to have exactly two distinct values).
Probabilities are modelled as exact rationals.
-/

namespace RLC

/-- A transaction row: an ordered tuple of categorical feature:value tokens. -/
abbrev Row := List String

/-- An entry of `self.itemsets`: index 0 holds the string marker for the
null/default rule, every later index holds a mined itemset (a tuple of
tokens in the Python code). -/
inductive Antecedent where
  | null
  | itemset (lhs : List String)
deriving DecidableEq, Repr

/-- Tokens an antecedent contributes to the Python expression `set(lhs)`:
for a mined itemset these are its tokens; for the string marker `null`,
Python `set` iterates the characters of the string, yielding the three
one-character strings. This branch is unreachable at index 0 in the code
because index 0 is special-cased. -/
def antTokens : Antecedent → List String
  | Antecedent.null => ["n", "u", "l"]
  | Antecedent.itemset lhs => lhs

/-- Embedding of the Python test `set(lhs).issubset(xi)`. -/
def tokSubset (lhs xi : List String) : Bool :=
  lhs.all (fun t => xi.contains t)

theorem tokSubset_iff (lhs xi : List String) :
    tokSubset lhs xi = true ↔ ∀ t ∈ lhs, t ∈ xi := by
  simp [tokSubset]

/-- Satisfaction sets built by `fit` (lines 189-192): a list of index sets,
entry 0 is the full transaction-index range, entry `j+1` collects the
transactions containing mined itemset `j`. -/
def fitSatSets (mined : List (List String)) (data : List Row) : List (List Nat) :=
  List.range data.length ::
    mined.map (fun lhs =>
      (List.range data.length).filter (fun i => tokSubset lhs (data.getD i [])))

/-- Satisfaction sets rebuilt at prediction time by `_to_itemset_indices`
(lines 252-259): entry 0 is again the full range; for `j > 0` the stored
antecedent at position `j` is tested for containment. The Python code
indexes `X[0]` unconditionally, so the list of stored antecedents is
nonempty whenever this runs; on an empty list the source raises. -/
def toItemsetIndices (its : List Antecedent) (data : List Row) : List (List Nat) :=
  match its with
  | [] => []
  | _ :: rest =>
      List.range data.length ::
        rest.map (fun a =>
          (List.range data.length).filter
            (fun i => tokSubset (antTokens a) (data.getD i [])))

theorem getD_map_lt {α β : Type} (f : α → β) (l : List α) (k : Nat)
    (hk : k < l.length) (d : α) (e : β) :
    (l.map f).getD k e = f (l.getD k d) := by
  induction l generalizing k with
  | nil => simp at hk
  | cons a t ih =>
      cases k with
      | zero => rfl
      | succ k => exact ih k (Nat.lt_of_succ_lt_succ hk)

/-- C6: in both encodings, the satisfaction set at rule index 0 is the
full transaction-index range of the data, i.e. exactly the indices
`0, ..., n-1`. -/
theorem sat_zero_full_range (mined : List (List String)) (a0 : Antecedent)
    (rest : List Antecedent) (data : List Row) :
    (fitSatSets mined data).getD 0 [] = List.range data.length
  ∧ (toItemsetIndices (a0 :: rest) data).getD 0 [] = List.range data.length
  ∧ (∀ i, i ∈ (fitSatSets mined data).getD 0 [] ↔ i < data.length) := by
  refine ⟨rfl, rfl, ?_⟩
  intro i
  simp [fitSatSets, List.mem_range]

/-- C7: for every rule index `j > 0` and transaction index `i` in range,
membership of `i` in satisfaction set `j` is equivalent to the antecedent
tokens of rule `j` all occurring in transaction `i`, both in the encoding
built by `fit` and in the one rebuilt at prediction time. -/
theorem sat_membership (mined : List (List String)) (a0 : Antecedent)
    (rest : List Antecedent) (data : List Row) (j i : Nat)
    (h0 : 0 < j) (hi : i < data.length) :
    (j < mined.length + 1 →
      (i ∈ (fitSatSets mined data).getD j [] ↔
        ∀ t ∈ mined.getD (j - 1) [], t ∈ data.getD i []))
  ∧ (j < rest.length + 1 →
      (i ∈ (toItemsetIndices (a0 :: rest) data).getD j [] ↔
        ∀ t ∈ antTokens (rest.getD (j - 1) Antecedent.null), t ∈ data.getD i [])) := by
  obtain ⟨k, rfl⟩ : ∃ k, j = k + 1 := ⟨j - 1, (Nat.succ_pred_eq_of_pos h0).symm⟩
  constructor
  · intro hj
    have hk : k < mined.length := Nat.lt_of_succ_lt_succ hj
    have hrow : (fitSatSets mined data).getD (k + 1) [] =
        (List.range data.length).filter
          (fun i => tokSubset (mined.getD k []) (data.getD i [])) := by
      show (mined.map _).getD k [] = _
      rw [getD_map_lt _ _ _ hk []]
    rw [hrow]
    simp only [List.mem_filter, List.mem_range, Nat.add_sub_cancel]
    rw [tokSubset_iff]
    exact ⟨fun h => h.2, fun h => ⟨hi, h⟩⟩
  · intro hj
    have hk : k < rest.length := Nat.lt_of_succ_lt_succ hj
    have hrow : (toItemsetIndices (a0 :: rest) data).getD (k + 1) [] =
        (List.range data.length).filter
          (fun i => tokSubset (antTokens (rest.getD k Antecedent.null)) (data.getD i [])) := by
      show (rest.map _).getD k [] = _
      rw [getD_map_lt _ _ _ hk Antecedent.null]
    rw [hrow]
    simp only [List.mem_filter, List.mem_range, Nat.add_sub_cancel]
    rw [tokSubset_iff]
    exact ⟨fun h => h.2, fun h => ⟨hi, h⟩⟩

/-- Witness for C7 at a concrete instance: one mined itemset, two rows. -/
theorem sat_membership_witness :
    (1 < 1 + 1 →
      (0 ∈ (fitSatSets [["a"]] [["a"], ["b"]]).getD 1 [] ↔
        ∀ t ∈ [["a"]].getD 0 [], t ∈ [["a"], ["b"]].getD 0 []))
  ∧ (1 < 1 + 1 →
      (0 ∈ (toItemsetIndices [Antecedent.null, Antecedent.itemset ["a"]]
              [["a"], ["b"]]).getD 1 [] ↔
        ∀ t ∈ antTokens ([Antecedent.itemset ["a"]].getD 0 Antecedent.null),
          t ∈ [["a"], ["b"]].getD 0 [])) :=
  sat_membership [["a"]] Antecedent.null [Antecedent.itemset ["a"]]
    [["a"], ["b"]] 1 0 (by decide) (by decide)

/-- The mutable attribute record of a `RuleListClassifier` object.
Fields set in `__init__` are always present; `feature_labels`,
`itemsets`, `theta` and `ci_theta` are only assigned during `fit`, so
`none` there models a missing attribute (accessing it raises
`AttributeError` in Python).  For `d_star`, `none` models the Python
value `None` stored by `__init__` (and by a failed fit).  The
discretizer, when present, is modelled by its `_data` table. -/
structure RLCState where
  listlengthprior : Nat
  listwidthprior : Nat
  maxcardinality : Nat
  minsupport : Nat
  alpha : ℚ × ℚ
  n_chains : Nat
  max_iter : Nat
  class1label : String
  verbose : Bool
  thinning : Nat
  burnin : Nat
  discretizer : Option (List Row)
  d_star : Option (List Nat)
  feature_labels : Option (List String)
  itemsets : Option (List Antecedent)
  theta : Option (List ℚ)
  ci_theta : Option (List (ℚ × ℚ))
deriving DecidableEq, Repr

/-- The state produced by `__init__` with all default arguments:
`burnin = max_iter // 2`, no discretizer, no point estimate, and no
fit-only attributes. -/
def initState : RLCState :=
  { listlengthprior := 3
    listwidthprior := 1
    maxcardinality := 2
    minsupport := 10
    alpha := (1, 1)
    n_chains := 3
    max_iter := 50000
    class1label := "class 1"
    verbose := true
    thinning := 1
    burnin := 25000
    discretizer := none
    d_star := none
    feature_labels := none
    itemsets := none
    theta := none
    ci_theta := none }

/-- Modelled from the spec: `preds_d_t` lives in `LethamBRL/BRL_code.py`,
which is not under src.  Per the Predictor section of the spec, for each
of the `n` input transactions the point-estimate list `d` is evaluated in
order and the first rule whose satisfaction set contains the transaction
determines the output probability as that position of `theta`; if no rule
matches, the probability of the terminal null rule (the last `theta`
entry) applies. -/
def preds_d_t (Xs : List (List Nat)) (d : List Nat) (theta : List ℚ)
    (n : Nat) : List ℚ :=
  (List.range n).map (fun i =>
    match (List.range d.length).find?
        (fun k => (Xs.getD (d.getD k 0) []).contains i) with
    | some k => theta.getD k 0
    | none => theta.getD (theta.length - 1) 0)

/-- Embedding of `_prepend_feature_labels`: every cell of every row is
rewritten to `label : value`; the Python loop takes the column count from
the first row. -/
def prependFeatureLabels (fl : List String) (X : List Row) : List Row :=
  X.map (fun row =>
    (List.range (X.headD []).length).map
      (fun j => fl.getD j ("") ++ (" : ") ++ row.getD j ("")))

/-- Embedding of the numpy slice `[:, :-1]` used on the discretizer table:
drop the last column of every row. -/
def dropLastCol (rows : List Row) : List Row :=
  rows.map (fun r => r.dropLast)

/-- The tail of `predict_proba` shared by both discretizer branches:
`N = len(D)`, rebuild the satisfaction sets from the stored itemsets,
call `preds_d_t` with the stored point estimate and thetas, and stack the
per-sample probability `P` into rows `[1-P, P]`.  An `Except.error`
models the Python call raising: a missing `itemsets` or `theta`
attribute raises `AttributeError`, and iterating a `None` point estimate
inside `preds_d_t` raises `TypeError`. -/
def predCore (s : RLCState) (D : List Row) : Except String (List (ℚ × ℚ)) :=
  match s.itemsets with
  | none => Except.error ("AttributeError: itemsets")
  | some its =>
      let Xs := toItemsetIndices its D
      match s.theta with
      | none => Except.error ("AttributeError: theta")
      | some th =>
          match s.d_star with
          | none => Except.error ("TypeError: NoneType is not iterable")
          | some d =>
              Except.ok ((preds_d_t Xs d th D.length).map (fun p => (1 - p, p)))

/-- Embedding of `predict_proba`.  The external MDLP transform
(`pd.DataFrame` construction plus `apply_cutpoints`, both outside src) is
abstracted as the oracle `cutp`; when a discretizer is present its
`_data` table is overwritten from the raw input (a mutation of the
fitted state, returned as the second component) and the prediction rows
are taken from the transformed table minus its last column, with feature
labels prepended.  Without a discretizer the raw input is used and the
state is untouched. -/
def predict_proba (cutp : List Row → List Row) (s : RLCState)
    (X : List Row) : Except String (List (ℚ × ℚ)) × RLCState :=
  match s.discretizer with
  | some _ =>
      match s.feature_labels with
      | none => (Except.error ("AttributeError: feature_labels"), s)
      | some fl =>
          let newData := cutp X
          let s1 := { s with discretizer := some newData }
          (predCore s1 (prependFeatureLabels fl (dropLastCol newData)), s1)
  | none => (predCore s X, s)

/-- Embedding of `predict`: `1*(self.predict_proba(X)[:,0] >= 0.5)`, i.e.
label 1 exactly when column 0 of the probability row is at least one
half. -/
def predict (cutp : List Row → List Row) (s : RLCState)
    (X : List Row) : Except String (List Nat) × RLCState :=
  let pr := predict_proba cutp s X
  (match pr.1 with
   | Except.ok rows =>
       Except.ok (rows.map (fun r => if (1 : ℚ)/2 ≤ r.1 then 1 else 0))
   | Except.error e => Except.error e,
   pr.2)

/-- Rendering of `" AND ".join(...)` over the tokens of an itemset. -/
def joinAnd (lhs : List String) : String :=
  String.intercalate (" AND ") lhs

/-- Rendering of `np.round(x*100, decimals)` in the report.  The binary
floating-point rounding and decimal formatting are abbreviated to the
exact rational; no verified claim depends on the rendered digits. -/
def pct (x : ℚ) : String :=
  toString (x * 100)

/-- One line of the report body for position `i` holding rule index `j`. -/
def condLine (s : RLCState) (its : List Antecedent) (th : List ℚ)
    (ci : List (ℚ × ℚ)) (i j : Nat) : String :=
  let condition :=
    match its.getD j Antecedent.null with
    | Antecedent.null => "ELSE"
    | Antecedent.itemset lhs => ("ELSE IF ") ++ joinAnd lhs ++ (" THEN")
  condition ++ (" probability of ") ++ s.class1label ++ (": ") ++
    pct (th.getD i 0) ++ ("% (") ++ pct ((ci.getD i (0, 0)).1) ++ ("%-") ++
    pct ((ci.getD i (0, 0)).2) ++ ("%)\n")

/-- Embedding of `tostring`: when `self.d_star` is truthy (a non-`None`,
nonempty list) the trained report is built from the stored itemsets,
thetas and credible intervals (raising `AttributeError` if they are
missing); otherwise the explicit untrained marker string is returned. -/
def tostring (s : RLCState) : Except String String :=
  match s.d_star with
  | some (j0 :: drest) =>
      match s.itemsets, s.theta, s.ci_theta with
      | some its, some th, some ci =>
          let detect :=
            if s.class1label ≠ ("class 1")
            then ("for detecting ") ++ s.class1label else ("")
          let header := ("Trained RuleListClassifier ") ++ detect ++ ("\n")
          let separator :=
            String.join (List.replicate header.length ("=")) ++ ("\n")
          let body :=
            String.join
              ((j0 :: drest).mapIdx (fun i j => condLine s its th ci i j))
          Except.ok (header ++ separator ++ (body.drop 5) ++ (separator.drop 1))
      | _, _, _ => Except.error ("AttributeError: itemsets, theta or ci_theta")
  | _ => Except.ok ("(Untrained RuleListClassifier)")

/-- Modelled from the spec: the frequent-itemset miner (`fpgrowth` from
the external fim package) is abstracted as a routine `mine` over a class
partition, a minimum support and a cardinality bound, together with a
flag saying whether the library accepts the `zmax` keyword spelling for
the cardinality bound.  Per the spec, the alternate spelling `max` has
identical semantics, so both spellings invoke the same routine with the
same arguments. -/
structure FPGrowthLib where
  supportsZmax : Bool
  mine : List Row → Nat → Nat → List (List String)

/-- A call of `fpgrowth(..., supp=minsupport, zmax=maxcardinality)`:
raises `TypeError` (modelled as `Except.error`) when the library does not
accept the keyword. -/
def fpgrowthZmax (lib : FPGrowthLib) (data : List Row) (supp card : Nat) :
    Except Unit (List (List String)) :=
  if lib.supportsZmax then Except.ok (lib.mine data supp card)
  else Except.error ()

/-- Embedding of the try/except mining block of `fit` (lines 178-183):
mine both class partitions with the `zmax` spelling; on `TypeError`,
redo both calls with the `max` spelling, passing the same support and
cardinality values to the same routine on the same partitions. -/
def mineItemsets (lib : FPGrowthLib) (dp dn : List Row) (supp card : Nat) :
    List (List String) :=
  match fpgrowthZmax lib dp supp card, fpgrowthZmax lib dn supp card with
  | Except.ok a, Except.ok b => a ++ b
  | _, _ => lib.mine dp supp card ++ lib.mine dn supp card

/-- Modelled from the spec: the MCMC stage of `fit`
(`run_bdl_multichain_serial`, `merge_chains`, `get_point_estimate`) and
the consequent stage (`get_rule_rhs`) live in `LethamBRL/BRL_code.py`,
which is not under src; the sampler is moreover randomized.  They are
abstracted as oracles receiving the classifier state, the satisfaction
sets, the stacked label matrix and (for the point estimate) the mined
itemsets; `pointEstimate` may return `none`, signalling an untrained
model. -/
structure BRLOracles where
  lib : FPGrowthLib
  pointEstimate : RLCState → List (List Nat) → List (Int × Int) →
    List (List String) → Option (List Nat)
  ruleRhs : RLCState → List (List Nat) → List (Int × Int) →
    List Nat → List ℚ × List (ℚ × ℚ)

/-- The exact message of the exception raised by the binary-label check. -/
def binaryMsg : String := "Only binary classification is supported at this time!"

/-- Embedding of `data_pos` (line 175): rows whose label equals 0. -/
def pyDataPos (X : List Row) (y : List Int) : List Row :=
  ((y.zip X).filter (fun p => p.1 == 0)).map Prod.snd

/-- Embedding of `data_neg` (line 176): rows whose label equals 1. -/
def pyDataNeg (X : List Row) (y : List Int) : List Row :=
  ((y.zip X).filter (fun p => p.1 == 1)).map Prod.snd

/-- Embedding of `fit`.  An `Except.error` models an exception
propagating out of the method and carries the attribute state at the
moment of the raise (Python leaves the object with whatever attributes
were already assigned).  Steps, in source order: the binary-label check
on `len(set(y))`; `check_X_y` (external sklearn validation, modelled as
the documented length and min-samples conditions); default feature
labels; the class partition and its `assert`; mining with the keyword
fallback followed by `list(set(...))` deduplication; the satisfaction
sets and stored itemsets; the MCMC point estimate; and, when the point
estimate is truthy, the rule consequents.  The input rows are typed as
categorical strings, so the discretize-on-numeric-data branch is not
taken. -/
def fit (or : BRLOracles) (s : RLCState) (X : List Row) (y : List Int)
    (featureLabels : Option (List String)) :
    Except (String × RLCState) RLCState :=
  if y.dedup.length ≠ 2 then Except.error (binaryMsg, s)
  else if X.length ≠ y.length ∨ X.length < 2 then
    Except.error ("check_X_y: invalid input", s)
  else
    let fl := featureLabels.getD
      ((List.range (X.headD []).length).map (fun i => ("ft") ++ toString (i + 1)))
    let s0 := { s with feature_labels := some fl }
    let dp := pyDataPos X y
    let dn := pyDataNeg X y
    if dp.length + dn.length ≠ X.length then
      Except.error ("AssertionError", s0)
    else
      let mined := (mineItemsets or.lib dp dn s.minsupport s.maxcardinality).dedup
      let Xtrain := fitSatSets mined X
      let Ytrain := y.map (fun v => (v, 1 - v))
      let s1 := { s0 with itemsets := some (Antecedent.null :: mined.map Antecedent.itemset) }
      let dStar := or.pointEstimate s1 Xtrain Ytrain mined
      let s2 := { s1 with d_star := dStar }
      match dStar with
      | some (h :: t) =>
          let tc := or.ruleRhs s2 Xtrain Ytrain (h :: t)
          Except.ok { s2 with theta := some tc.1, ci_theta := some tc.2 }
      | _ => Except.ok s2

/-- A trivial concrete instantiation of the external oracles, used by
witnesses. -/
def trivialOracles : BRLOracles :=
  { lib := { supportsZmax := true, mine := fun _ _ _ => [] }
    pointEstimate := fun _ _ _ _ => none
    ruleRhs := fun _ _ _ _ => ([], []) }

/-- C3: when the label vector does not have exactly two distinct values,
`fit` raises immediately with the binary-classification message,
uniformly in the external mining and MCMC oracles (so before any mining
or sampling), and the carried state is exactly the input state (no
partial fitted state, in particular `d_star` unchanged); when the labels
do have exactly two distinct values, no run of `fit` raises that
message. -/
theorem fit_binary_check (or : BRLOracles) (s : RLCState) (X : List Row)
    (y : List Int) (fl : Option (List String)) :
    (y.dedup.length ≠ 2 →
      fit or s X y fl = Except.error (binaryMsg, s))
  ∧ (y.dedup.length = 2 →
      ∀ st, fit or s X y fl ≠ Except.error (binaryMsg, st)) := by
  constructor
  · intro h
    simp [fit, h]
  · intro h st
    unfold fit
    rw [if_neg (by simp [h])]
    split
    · intro hcontra
      have : ("check_X_y: invalid input" : String) = binaryMsg := by
        have := Except.error.inj hcontra
        exact congrArg Prod.fst this
      exact absurd this (by decide)
    · simp only []
      split
      · intro hcontra
        have : ("AssertionError" : String) = binaryMsg := by
          have := Except.error.inj hcontra
          exact congrArg Prod.fst this
        exact absurd this (by decide)
      · split <;> intro hcontra <;> exact Except.noConfusion hcontra

/-- Witness for C3: labels `[0, 0]` (one distinct value) make `fit` raise
with the untouched initial state; labels `[0, 1]` pass the check. -/
theorem fit_binary_check_witness :
    (fit trivialOracles initState [["a"], ["b"]] [0, 0] none =
      Except.error (binaryMsg, initState))
  ∧ (∀ st, fit trivialOracles initState [["a"], ["b"]] [0, 1] none ≠
      Except.error (binaryMsg, st)) :=
  ⟨(fit_binary_check trivialOracles initState [["a"], ["b"]] [0, 0] none).1
      (by decide),
   (fit_binary_check trivialOracles initState [["a"], ["b"]] [0, 1] none).2
      (by decide)⟩

/-- C8: whether or not the mining library supports the `zmax` keyword,
the candidate set produced by the try/except block equals the
concatenation of the primary per-partition mining results with the given
support and cardinality values — the fallback spelling changes nothing. -/
theorem mining_fallback (lib : FPGrowthLib) (dp dn : List Row)
    (supp card : Nat) :
    mineItemsets lib dp dn supp card =
      lib.mine dp supp card ++ lib.mine dn supp card := by
  unfold mineItemsets fpgrowthZmax
  cases h : lib.supportsZmax <;> simp [h]

/-- C9 counterexample: the labels `[2, 3]` have exactly two distinct
values, so the binary-label check accepts them, yet the label-0 and
label-1 partitions are both empty: their sizes sum to 0, not to the
number of transactions, and `fit` stops at the `assert`. -/
theorem partition_assert_cex :
    ([2, 3] : List Int).dedup.length = 2
  ∧ (pyDataPos [["a"], ["b"]] [2, 3]).length +
      (pyDataNeg [["a"], ["b"]] [2, 3]).length = 0
  ∧ (0 : Nat) ≠ 2
  ∧ fit trivialOracles initState [["a"], ["b"]] [2, 3] none =
      Except.error ("AssertionError",
        { initState with feature_labels := some ["ft1"] }) := by
  refine ⟨by decide, by decide, by decide, ?_⟩
  rfl

/-- C9 (amended): when every label is 0 or 1 and labels align with the
rows, the label-0 and label-1 partitions split the data, so their sizes
sum to the total number of transactions and the `assert` in `fit`
succeeds. -/
theorem partition_count (l : List (Int × Row))
    (h01 : ∀ p ∈ l, p.1 = 0 ∨ p.1 = 1) :
    (l.filter (fun p => p.1 == 0)).length +
      (l.filter (fun p => p.1 == 1)).length = l.length := by
  induction l with
  | nil => rfl
  | cons p t ih =>
      have hp := h01 p (List.mem_cons_self p t)
      have ht : ∀ q ∈ t, q.1 = 0 ∨ q.1 = 1 := fun q hq =>
        h01 q (List.mem_cons_of_mem p hq)
      have htotal := ih ht
      rcases hp with h | h <;>
        simp [List.filter_cons, h, beq_iff_eq] <;> omega

theorem partition_sizes (X : List Row) (y : List Int)
    (hlen : y.length = X.length) (h01 : ∀ v ∈ y, v = 0 ∨ v = 1) :
    (pyDataPos X y).length + (pyDataNeg X y).length = X.length := by
  have hz : ∀ p ∈ y.zip X, p.1 = 0 ∨ p.1 = 1 := by
    rintro ⟨v, r⟩ hp
    exact h01 v (List.of_mem_zip hp).1
  have hcount := partition_count (y.zip X) hz
  have hzlen : (y.zip X).length = X.length := by
    simp [List.length_zip, hlen]
  simpa [pyDataPos, pyDataNeg, hzlen] using hcount

/-- Witness for C9 (amended) at labels `[0, 1]` over two rows. -/
theorem partition_sizes_witness :
    (pyDataPos [["a"], ["b"]] [0, 1]).length +
      (pyDataNeg [["a"], ["b"]] [0, 1]).length = 2 :=
  partition_sizes [["a"], ["b"]] [0, 1] (by decide) (by decide)

/-- A concrete fitted model for exercising C1: the point estimate is just
the terminal null rule, with class-1 probability 3/10. -/
def sC1 : RLCState :=
  { initState with
      itemsets := some [Antecedent.null]
      d_star := some [0]
      theta := some [(3 : ℚ)/10]
      ci_theta := some [((1 : ℚ)/4, (2 : ℚ)/5)] }

/-- C1: evaluation at the failing input.  The probability row is
`[0.7, 0.3]`, so column 0 (the class-1 complement) is at least 0.5 and
the claimed behavior is label 0 — but the code `1*(proba[:,0] >= 0.5)`
returns label 1. -/
theorem predict_threshold_bug :
    (predict_proba (fun x => x) sC1 [["t"]]).1 =
      Except.ok [((7 : ℚ)/10, (3 : ℚ)/10)]
  ∧ (predict (fun x => x) sC1 [["t"]]).1 = Except.ok [1]
  ∧ ((1 : ℚ)/2 ≤ (7 : ℚ)/10) := by
  have h1 : (predict_proba (fun x => x) sC1 [["t"]]).1 =
      Except.ok [((1 : ℚ) - 3/10, (3 : ℚ)/10)] := rfl
  have hrow : (predict_proba (fun x => x) sC1 [["t"]]).1 =
      Except.ok [((7 : ℚ)/10, (3 : ℚ)/10)] := by
    rw [h1]
    norm_num
  refine ⟨hrow, ?_, by norm_num⟩
  simp only [predict, hrow]
  norm_num

theorem predCore_error_of_dstar_none (s : RLCState) (D : List Row)
    (h : s.d_star = none) : ∃ e, predCore s D = Except.error e := by
  unfold predCore
  cases hits : s.itemsets with
  | none => exact ⟨_, rfl⟩
  | some its =>
      cases hth : s.theta with
      | none => exact ⟨_, rfl⟩
      | some th =>
          rw [h]
          exact ⟨_, rfl⟩

theorem predict_proba_error_of_dstar_none (cutp : List Row → List Row)
    (s : RLCState) (X : List Row) (h : s.d_star = none) :
    ∃ e, (predict_proba cutp s X).1 = Except.error e := by
  unfold predict_proba
  cases hd : s.discretizer with
  | none => exact predCore_error_of_dstar_none s X h
  | some t =>
      cases hf : s.feature_labels with
      | none => exact ⟨_, rfl⟩
      | some fl => exact predCore_error_of_dstar_none _ _ (by simp [h])

theorem predict_error_of_proba_error (cutp : List Row → List Row)
    (s : RLCState) (X : List Row)
    (h : ∃ e, (predict_proba cutp s X).1 = Except.error e) :
    ∃ e, (predict cutp s X).1 = Except.error e := by
  obtain ⟨e, he⟩ := h
  exact ⟨e, by simp [predict, he]⟩

/-- C2 counterexample: on a freshly initialized classifier (point
estimate absent) `predict_proba` and `predict` raise (here the
`AttributeError` for the never-assigned `itemsets`) instead of returning
an explicit untrained result, so the claim fails for those two entry
points. -/
theorem predict_untrained_raises :
    initState.d_star = none
  ∧ (predict_proba (fun x => x) initState [[]]).1 =
      Except.error ("AttributeError: itemsets")
  ∧ (predict (fun x => x) initState [[]]).1 =
      Except.error ("AttributeError: itemsets") :=
  ⟨rfl, rfl, rfl⟩

/-- C2 (amended): with the point estimate absent, the string description
returns the explicit untrained marker without raising, while
`predict_proba` and `predict` always raise. -/
theorem untrained_behavior (cutp : List Row → List Row) (s : RLCState)
    (X : List Row) (h : s.d_star = none) :
    tostring s = Except.ok ("(Untrained RuleListClassifier)")
  ∧ (∃ e, (predict_proba cutp s X).1 = Except.error e)
  ∧ (∃ e, (predict cutp s X).1 = Except.error e) := by
  refine ⟨by simp [tostring, h], predict_proba_error_of_dstar_none cutp s X h, ?_⟩
  exact predict_error_of_proba_error cutp s X
    (predict_proba_error_of_dstar_none cutp s X h)

/-- Witness for C2 (amended) on the freshly initialized state. -/
theorem untrained_behavior_witness :
    tostring initState = Except.ok ("(Untrained RuleListClassifier)")
  ∧ (∃ e, (predict_proba (fun x => x) initState [[]]).1 = Except.error e)
  ∧ (∃ e, (predict (fun x => x) initState [[]]).1 = Except.error e) :=
  untrained_behavior (fun x => x) initState [[]] rfl

theorem predCore_ok_rows (s : RLCState) (D : List Row)
    (rows : List (ℚ × ℚ)) (h : predCore s D = Except.ok rows) :
    ∀ r ∈ rows, r.1 + r.2 = 1 := by
  unfold predCore at h
  split at h
  · exact Except.noConfusion h
  · split at h
    · exact Except.noConfusion h
    · split at h
      · exact Except.noConfusion h
      · obtain rfl := (Except.ok.inj h).symm
        intro r hr
        obtain ⟨p, hp, rfl⟩ := List.mem_map.mp hr
        simp

/-- C4: every successful `predict_proba` row is the pair `(1-P, P)` for
a single per-sample probability `P`, so its two entries sum to 1. -/
theorem proba_rows_sum_one (cutp : List Row → List Row) (s : RLCState)
    (X : List Row) (rows : List (ℚ × ℚ))
    (h : (predict_proba cutp s X).1 = Except.ok rows) :
    ∀ r ∈ rows, r.1 + r.2 = 1 := by
  unfold predict_proba at h
  split at h
  · split at h
    · exact Except.noConfusion h
    · exact predCore_ok_rows _ _ _ h
  · exact predCore_ok_rows _ _ _ h

/-- A concrete fitted model for the C4 witness. -/
def sC4 : RLCState :=
  { initState with
      itemsets := some [Antecedent.null]
      d_star := some [0]
      theta := some [(2 : ℚ)/5]
      ci_theta := some [((1 : ℚ)/4, (1 : ℚ)/2)] }

/-- Witness for C4: the concrete row `(3/5, 2/5)` sums to 1. -/
theorem proba_rows_sum_one_witness :
    (((3 : ℚ)/5, (2 : ℚ)/5)).1 + (((3 : ℚ)/5, (2 : ℚ)/5)).2 = 1 :=
  proba_rows_sum_one (fun x => x) sC4 [["t"]] [((3 : ℚ)/5, (2 : ℚ)/5)] (by
    have h1 : (predict_proba (fun x => x) sC4 [["t"]]).1 =
        Except.ok [((1 : ℚ) - 2/5, (2 : ℚ)/5)] := rfl
    rw [h1]
    norm_num) (((3 : ℚ)/5, (2 : ℚ)/5)) (by simp)

/-- C5: prediction is deterministic and free of resampling: running
`predict_proba` (or `predict`) again from the state returned by a first
run on the same input reproduces the first result exactly — in
particular two calls with the same model state and input agree, the only
state touched being the discretizer table, which is rebuilt from the
input alone. -/
theorem predict_deterministic (cutp : List Row → List Row) (s : RLCState)
    (X : List Row) :
    predict_proba cutp ((predict_proba cutp s X).2) X = predict_proba cutp s X
  ∧ predict cutp ((predict cutp s X).2) X = predict cutp s X := by
  have hpp : predict_proba cutp ((predict_proba cutp s X).2) X =
      predict_proba cutp s X := by
    cases hd : s.discretizer with
    | none => simp [predict_proba, hd]
    | some t =>
        cases hf : s.feature_labels with
        | none => simp [predict_proba, hd, hf]
        | some fl => simp [predict_proba, hd, hf]
  refine ⟨hpp, ?_⟩
  have h2 : (predict cutp s X).2 = (predict_proba cutp s X).2 := rfl
  rw [h2]
  unfold predict
  rw [hpp]

/-- C10: on a model with no discretizer, `predict_proba` and `predict`
return the classifier state unchanged — every attribute (`d_star`,
`theta`, `ci_theta`, `itemsets`, `feature_labels`, `discretizer`) is the
same before and after the call. -/
theorem predict_frame (cutp : List Row → List Row) (s : RLCState)
    (X : List Row) (h : s.discretizer = none) :
    (predict_proba cutp s X).2 = s ∧ (predict cutp s X).2 = s := by
  have h1 : (predict_proba cutp s X).2 = s := by
    simp [predict_proba, h]
  exact ⟨h1, h1⟩

/-- Witness for C10 on the initial (discretizer-free) state. -/
theorem predict_frame_witness :
    (predict_proba (fun x => x) initState [[]]).2 = initState
  ∧ (predict (fun x => x) initState [[]]).2 = initState :=
  predict_frame (fun x => x) initState [[]] rfl

end RLC
